import Mathlib

/-!
Shallow embedding of `pyspark_streaming_deployment/deploy_to_databricks.py`
and proofs about its specification.

The script's data are JSON-shaped dictionaries; we embed them as an
inductive `Json` type.  Remote API interaction is embedded as a trace of
`ApiCall` values (for call-sequence claims) and as a transition function on
the remote job list (for the at-most-one-job invariant claim).
-/

/-- JSON-shaped values, as produced by `json.load` in `__read_job_config`. -/
inductive Json where
  | null : Json
  | bool (b : Bool) : Json
  | num (n : Int) : Json
  | str (s : String) : Json
  | arr (xs : List Json) : Json
  | obj (fs : List (String × Json)) : Json

/-- First value bound to key `k` in an association list (Python dict lookup). -/
def lookupField (k : String) : List (String × Json) → Option Json
  | [] => none
  | (k', v) :: rest => if k' = k then some v else lookupField k rest

/-- Dict lookup: `j[k]` when `j` is an object holding `k`, else `none`. -/
def Json.getKey : Json → String → Option Json
  | Json.obj fs, k => lookupField k fs
  | _, _ => none

/-- Python dict assignment on an association list: replace in place when the
key exists (insertion order preserved), append at the end otherwise. -/
def setFieldList (k : String) (v : Json) : List (String × Json) → List (String × Json)
  | [] => [(k, v)]
  | (k', v') :: rest => if k' = k then (k, v) :: rest else (k', v') :: setFieldList k v rest

/-- Dict assignment `j[k] = v`; on non-objects the script would raise, and
those cases never arise under the success paths we prove about. -/
def Json.setKey : Json → String → Json → Json
  | Json.obj fs, k, v => Json.obj (setFieldList k v fs)
  | j, _, _ => j

/-- Chained dict lookup `j[k1][k2]...`. -/
def Json.getPath : Json → List String → Option Json
  | j, [] => some j
  | j, k :: ks =>
    match j.getKey k with
    | some v => Json.getPath v ks
    | none => none

/-- Chained in-place dict assignment `j[k1][k2]... = v` (a no-op on a missing
intermediate key; the embedding only applies it after the lookups succeeded). -/
def Json.setPath : Json → List String → Json → Json
  | _, [], v => v
  | j, k :: ks, v =>
    match j.getKey k with
    | some child => j.setKey k (Json.setPath child ks v)
    | none => j

/-- The errors `str.format(dtap=...)` can raise. -/
inductive FormatError where
  | keyError (field : String)
  | indexError
  | valueError

def lbrace : Char := '{'

def rbrace : Char := '}'

/-- Scanner state for the `str.format` model: scanning literal text,
just saw a lone `{`, just saw a lone `}`, or inside a replacement field
whose name read so far is `acc` (reversed). -/
inductive FmtState where
  | normal
  | sawL
  | sawR
  | field (acc : List Char)

/-- Core of Python `str.format` with the single keyword argument `dtap`
bound to `v`, over the character list of the template string, one character
per step.  `{{`/`}}` are escapes; `{dtap}` substitutes `v`; `{}` raises
IndexError, `{other}` raises KeyError, and stray braces raise ValueError,
as in CPython (simple field names only; the script's templates use none of
the `!`/`:` forms). -/
def formatChars (v : List Char) : FmtState → List Char → Except FormatError (List Char)
  | FmtState.normal, [] => Except.ok []
  | FmtState.normal, c :: rest =>
    if c = lbrace then formatChars v FmtState.sawL rest
    else if c = rbrace then formatChars v FmtState.sawR rest
    else (fun r => c :: r) <$> formatChars v FmtState.normal rest
  | FmtState.sawL, [] => Except.error FormatError.valueError
  | FmtState.sawL, c :: rest =>
    if c = lbrace then (fun r => lbrace :: r) <$> formatChars v FmtState.normal rest
    else if c = rbrace then Except.error FormatError.indexError
    else formatChars v (FmtState.field [c]) rest
  | FmtState.sawR, [] => Except.error FormatError.valueError
  | FmtState.sawR, c :: rest =>
    if c = rbrace then (fun r => rbrace :: r) <$> formatChars v FmtState.normal rest
    else Except.error FormatError.valueError
  | FmtState.field _, [] => Except.error FormatError.valueError
  | FmtState.field acc, c :: rest =>
    if c = rbrace then
      if acc.reverse = [ 'd', 't', 'a', 'p' ] then
        (fun r => v ++ r) <$> formatChars v FmtState.normal rest
      else Except.error (FormatError.keyError (String.mk acc.reverse))
    else if c = lbrace then Except.error FormatError.valueError
    else formatChars v (FmtState.field (c :: acc)) rest

/-- Python `s.format(dtap=v)`. -/
def pyFormat (s : String) (v : String) : Except FormatError String :=
  (fun cs => String.mk cs) <$> formatChars v.data FmtState.normal s.data

/-- Errors raised inside `__construct_job_config`: a missing dict key
(KeyError), indexing/attribute misuse on a value of the wrong shape
(TypeError/AttributeError, collapsed into one constructor), or an error
propagated from `str.format`. -/
inductive BuildError where
  | keyError (k : String)
  | typeError
  | formatError (e : FormatError)

/-- Python `j[k]` as a fallible operation: KeyError when an object misses
the key, a type error when `j` is not a dict. -/
def getItem (j : Json) (k : String) : Except BuildError Json :=
  match j with
  | Json.obj fs =>
    match lookupField k fs with
    | some v => Except.ok v
    | none => Except.error (BuildError.keyError k)
  | _ => Except.error BuildError.typeError

/-- Calling `.format` on a non-string raises (AttributeError). -/
def asString : Json → Except BuildError String
  | Json.str s => Except.ok s
  | _ => Except.error BuildError.typeError

/-- Python `dtap.lower()` (the tiers are the ASCII strings `PRD`/`DEV`). -/
def strLower (s : String) : String :=
  String.mk (s.data.map Char.toLower)

/-- The template path whose string value is interpolated with the tier name. -/
def warehouse_dir_path : List String :=
  [ "new_cluster", "spark_conf", "spark.sql.warehouse.dir" ]

/-- Embedding of `__construct_job_config` (the file read `__read_job_config`
is abstracted into the `template` argument): interpolate the lowercased tier
into the warehouse-dir string, overwrite `name` and
`spark_python_task.python_file`, and append one egg entry to `libraries`,
in the source's statement order. -/
def construct_job_config (template : Json) (name dtap egg python_file : String) :
    Except BuildError Json :=
  match getItem template "new_cluster" with
  | Except.error e => Except.error e
  | Except.ok nc =>
    match getItem nc "spark_conf" with
    | Except.error e => Except.error e
    | Except.ok sc =>
      match getItem sc "spark.sql.warehouse.dir" with
      | Except.error e => Except.error e
      | Except.ok wd =>
        match asString wd with
        | Except.error e => Except.error e
        | Except.ok ws =>
          match pyFormat ws (strLower dtap) with
          | Except.error e => Except.error (BuildError.formatError e)
          | Except.ok formatted =>
            let j1 := Json.setPath template warehouse_dir_path (Json.str formatted)
            let j2 := j1.setKey "name" (Json.str name)
            match getItem j2 "spark_python_task" with
            | Except.error e => Except.error e
            | Except.ok spt =>
              match spt with
              | Json.obj _ =>
                let j3 := j2.setKey "spark_python_task"
                  (spt.setKey "python_file" (Json.str python_file))
                match getItem j3 "libraries" with
                | Except.error e => Except.error e
                | Except.ok (Json.arr xs) =>
                  Except.ok (j3.setKey "libraries"
                    (Json.arr (xs ++ [ Json.obj [("egg", Json.str egg)] ])))
                | Except.ok _ => Except.error BuildError.typeError
              | _ => Except.error BuildError.typeError

/-- Key membership `k in j.keys()`. -/
def hasKey (j : Json) (k : String) : Bool :=
  match j.getKey k with
  | some _ => true
  | none => false

/-- `is_streaming = 'schedule' in job_config.keys()` from `deploy_application`. -/
def is_streaming (job_config : Json) : Bool :=
  hasKey job_config "schedule"

/-- The `JobConfig` dataclass: a remote job's display name and numeric id. -/
structure JobConfig where
  name : String
  job_id : Int
deriving DecidableEq, Repr

/-- Matcher for one job name against the version pattern:
`^(application_name)-(SNAPSHOT|\d+\.\d+\.\d+)$` over the characters after
the literal application name and a dash.  Greedy `\d+` followed by the
literal `\.` is equivalent to taking the maximal digit run and then
requiring a dot (giving digits back would put a digit where `\.` must
match), so the embedding uses `takeWhile`/`dropWhile`. -/
def digitsThenDot (cs : List Char) : Option (List Char) :=
  match cs.dropWhile Char.isDigit with
  | c :: t => if c = '.' ∧ cs.takeWhile Char.isDigit ≠ [] then some t else none
  | [] => none

def versionChars (cs : List Char) : Bool :=
  match digitsThenDot cs with
  | some t1 =>
    match digitsThenDot t1 with
    | some t2 =>
      decide (t2.takeWhile Char.isDigit ≠ []) && decide (t2.dropWhile Char.isDigit = [])
    | none => false
  | none => false

/-- The version alternative `SNAPSHOT|\d+\.\d+\.\d+` on a character list. -/
def versionOkChars (cs : List Char) : Bool :=
  decide (cs = "SNAPSHOT".data) || versionChars cs

/-- The version alternative on a string. -/
def versionOk (s : String) : Bool :=
  versionOkChars s.data

/-- The `has_match` predicate inside `__application_job_id`: the compiled
regex `^({application_name})-(SNAPSHOT|\d+\.\d+\.\d+)$` searched against the
job name, plus the guard `match.groups()[0] == application_name`.  For a
literal application name the anchored regex together with that guard holds
exactly when the job name is the application name, a dash, and a version
from the alternative. -/
def has_match (application_name : String) (job_name : String) : Bool :=
  let a := application_name.data
  let n := job_name.data
  decide (n.take (a.length + 1) = a ++ [ '-' ]) && versionOkChars (n.drop (a.length + 1))

/-- Embedding of `__application_job_id`: the id of the first job in the
listing whose name matches, `none` (Python `None`) when no job matches. -/
def application_job_id (application_name : String) (jobs : List JobConfig) : Option Int :=
  (jobs.find? (fun j => has_match application_name j.name)).map JobConfig.job_id

/-- One remote API request, in the order the script issues them. -/
inductive ApiCall where
  | listJobs
  | listRuns (job_id : Int) (active_only : Bool)
  | cancelRun (run_id : Int)
  | deleteJob (job_id : Int)
  | createJob (config : Json)
  | runNow (job_id : Int) (jar_params : Option (List String))
      (notebook_params : Option (List (String × String)))
      (python_params : Option (List String))
      (spark_submit_params : Option (List String))

/-- Embedding of `__kill_it_with_fire` as the trace of calls it issues.
`runs_response job_id` is the first page returned by
`runs_api.list_runs(job_id, active_only=True, ...)`: `some run_ids` when the
response carries a `runs` key, `none` when it does not. -/
def kill_it_with_fire (runs_response : Int → Option (List Int)) (job_id : Int) :
    List ApiCall :=
  ApiCall.listRuns job_id true ::
    (match runs_response job_id with
     | some run_ids => run_ids.map ApiCall.cancelRun
     | none => [])

/-- Embedding of `__remove_job` as the trace of calls it issues, given the
job listing returned by `jobs_api.list_jobs()`.  Python's `if job_id:` is
false both for `None` and for the integer `0`. -/
def remove_job (jobs : List JobConfig) (runs_response : Int → Option (List Int))
    (application_name : String) (streaming : Bool) : List ApiCall :=
  ApiCall.listJobs ::
    (match application_job_id application_name jobs with
     | none => []
     | some job_id =>
       if job_id = 0 then []
       else
         (if streaming then kill_it_with_fire runs_response job_id else []) ++
           [ ApiCall.deleteJob job_id ])

/-- Embedding of `__submit_job` as the trace of calls it issues.
`new_job_id` is the id the service returns from `create_job`; the
`run_now` call passes `None` for all four parameter-override arguments. -/
def submit_job (job_config : Json) (streaming : Bool) (new_job_id : Int) : List ApiCall :=
  ApiCall.createJob job_config ::
    (if streaming then [ ApiCall.runNow new_job_id none none none none ] else [])

/-- Effect of `jobs_api.delete_job(job_id)` on the remote job list. -/
def delete_job_state (jobs : List JobConfig) (job_id : Int) : List JobConfig :=
  jobs.filter (fun j => j.job_id ≠ job_id)

/-- Effect of `__remove_job` on the remote job list (run cancellation does
not change the job list). -/
def remove_job_state (jobs : List JobConfig) (application_name : String) : List JobConfig :=
  match application_job_id application_name jobs with
  | none => jobs
  | some job_id => if job_id = 0 then jobs else delete_job_state jobs job_id

/-- Effect of `__submit_job` on the remote job list: `create_job` adds one
job named after the submitted config under a service-assigned id. -/
def submit_job_state (jobs : List JobConfig) (new_name : String) (new_job_id : Int) :
    List JobConfig :=
  jobs ++ [ ⟨new_name, new_job_id⟩ ]

/-- Effect of one remove-then-submit deployment run on the remote job list;
the submitted config's name is `f"{application_name}-{version}"`. -/
def deploy_run_state (jobs : List JobConfig) (application_name version : String)
    (new_job_id : Int) : List JobConfig :=
  submit_job_state (remove_job_state jobs application_name)
    (application_name ++ "-" ++ version) new_job_id

/-- The jobs in a listing whose name matches the application pattern. -/
def matching_jobs (jobs : List JobConfig) (application_name : String) : List JobConfig :=
  jobs.filter (fun j => has_match application_name j.name)

/-- Result of the release classifier in `main`. -/
inductive Outcome where
  | deploy (version : String) (dtap : String)
  | skip (branch : String)
deriving DecidableEq, Repr

/-- Embedding of the classifier in `main`: `tag` is the first tag pointing
at the current commit (`None` when there is none), `branch` is
`BUILD_SOURCEBRANCHNAME`.  A tag object is truthy, so an exact-match tag
always wins; otherwise the `master` branch deploys a SNAPSHOT to DEV and
any other branch only prints the diagnostic naming it. -/
def classify (tag : Option String) (branch : String) : Outcome :=
  match tag with
  | some t => Outcome.deploy t "PRD"
  | none =>
    if branch = "master" then Outcome.deploy "SNAPSHOT" "DEV"
    else Outcome.skip branch

/-- Whether an `Except` value is a success (`Except.isOk`). -/
def exceptOk {ε α : Type} : Except ε α → Bool
  | Except.ok _ => true
  | Except.error _ => false

/-- The spec's end-to-end scenario-1 template. -/
def c4_template : Json :=
  Json.obj
    [ ("new_cluster", Json.obj
        [ ("spark_conf", Json.obj
            [ ("spark.sql.warehouse.dir", Json.str "/mnt/{dtap}") ]) ]),
      ("spark_python_task", Json.obj []),
      ("libraries", Json.arr []) ]

/-- The built egg path used in the concrete scenarios. -/
def sample_egg : String := "dbfs:/mnt/sdhdev/libraries/app/app-1.0.0.egg"

/-- The entry-point path used in the concrete scenarios. -/
def sample_py : String := "dbfs:/mnt/sdhdev/libraries/app/app-main-1.0.0.py"

/-- The config the builder returns in scenario 1 (computed). -/
def c4_result : Json :=
  Json.obj
    [ ("new_cluster", Json.obj
        [ ("spark_conf", Json.obj
            [ ("spark.sql.warehouse.dir", Json.str "/mnt/prd") ]) ]),
      ("spark_python_task", Json.obj [ ("python_file", Json.str sample_py) ]),
      ("libraries", Json.arr [ Json.obj [ ("egg", Json.str sample_egg) ] ]),
      ("name", Json.str "app-1.0.0") ]

/-- A template carrying a `schedule` key, for the streaming classification. -/
def c6_template : Json :=
  Json.obj
    [ ("new_cluster", Json.obj
        [ ("spark_conf", Json.obj
            [ ("spark.sql.warehouse.dir", Json.str "/mnt/{dtap}") ]) ]),
      ("spark_python_task", Json.obj []),
      ("libraries", Json.arr []),
      ("schedule", Json.obj [ ("quartz_cron_expression", Json.str "0 0 * * * ?") ]) ]

/-- The config the builder returns on `c6_template` (computed). -/
def c6_result : Json :=
  Json.obj
    [ ("new_cluster", Json.obj
        [ ("spark_conf", Json.obj
            [ ("spark.sql.warehouse.dir", Json.str "/mnt/dev") ]) ]),
      ("spark_python_task", Json.obj [ ("python_file", Json.str sample_py) ]),
      ("libraries", Json.arr [ Json.obj [ ("egg", Json.str sample_egg) ] ]),
      ("schedule", Json.obj [ ("quartz_cron_expression", Json.str "0 0 * * * ?") ]),
      ("name", Json.str "app-SNAPSHOT") ]

/-- A template whose warehouse-dir string carries no placeholder at all. -/
def c8_template : Json :=
  Json.obj
    [ ("new_cluster", Json.obj
        [ ("spark_conf", Json.obj
            [ ("spark.sql.warehouse.dir", Json.str "/mnt/static") ]) ]),
      ("spark_python_task", Json.obj []),
      ("libraries", Json.arr []) ]

/-- The remote job listing used in the concrete streaming-removal scenario. -/
def c3_jobs : List JobConfig := [ ⟨"app-SNAPSHOT", 7⟩ ]

/-- First-page active runs per job id in that scenario. -/
def c3_runs : Int → Option (List Int) := fun j => if j = 7 then some [ 101, 102 ] else none

/-- A job listing whose matching job carries the falsy id 0. -/
def c10_jobs : List JobConfig := [ ⟨"app-1.0.0", 0⟩ ]

/-! ### Lemmas about the embedding -/

theorem string_data_inj {s t : String} (h : s.data = t.data) : s = t := by
  cases s
  cases t
  exact congrArg String.mk h

theorem lookupField_setFieldList_ne (fs : List (String × Json)) (k k' : String) (v : Json)
    (h : k' ≠ k) : lookupField k' (setFieldList k v fs) = lookupField k' fs := by
  induction fs with
  | nil => simp [setFieldList, lookupField, Ne.symm h]
  | cons head tail ih =>
    obtain ⟨k2, v2⟩ := head
    by_cases hk2 : k2 = k
    · subst hk2
      simp [setFieldList, lookupField, Ne.symm h]
    · simp [setFieldList, lookupField, hk2, ih]

theorem lookupField_setFieldList_eq (fs : List (String × Json)) (k : String) (v : Json) :
    lookupField k (setFieldList k v fs) = some v := by
  induction fs with
  | nil => simp [setFieldList, lookupField]
  | cons head tail ih =>
    obtain ⟨k2, v2⟩ := head
    by_cases hk2 : k2 = k
    · subst hk2
      simp [setFieldList, lookupField]
    · simp [setFieldList, lookupField, hk2, ih]

theorem getKey_setKey_ne (j : Json) (k k' : String) (v : Json) (h : k' ≠ k) :
    (j.setKey k v).getKey k' = j.getKey k' := by
  cases j <;>
    first
      | rfl
      | simpa [Json.setKey, Json.getKey] using lookupField_setFieldList_ne _ k k' v h

theorem getKey_setKey_eq (fs : List (String × Json)) (k : String) (v : Json) :
    ((Json.obj fs).setKey k v).getKey k = some v := by
  simpa [Json.setKey, Json.getKey] using lookupField_setFieldList_eq fs k v

theorem getKey_some_obj {j : Json} {k : String} {v : Json} (h : j.getKey k = some v) :
    ∃ fs, j = Json.obj fs := by
  cases j with
  | obj fs => exact ⟨fs, rfl⟩
  | null => simp [Json.getKey] at h
  | bool b => simp [Json.getKey] at h
  | num n => simp [Json.getKey] at h
  | str s => simp [Json.getKey] at h
  | arr xs => simp [Json.getKey] at h

theorem getItem_eq_ok_iff (j : Json) (k : String) (v : Json) :
    getItem j k = Except.ok v ↔ j.getKey k = some v := by
  constructor
  · intro h
    cases j with
    | obj fs =>
      simp only [getItem] at h
      cases hl : lookupField k fs with
      | some w =>
        rw [hl] at h
        cases h
        simpa [Json.getKey] using hl
      | none =>
        rw [hl] at h
        exact Except.noConfusion h
    | null => exact Except.noConfusion h
    | bool b => exact Except.noConfusion h
    | num n => exact Except.noConfusion h
    | str s => exact Except.noConfusion h
    | arr xs => exact Except.noConfusion h
  · intro h
    obtain ⟨fs, rfl⟩ := getKey_some_obj h
    simp only [Json.getKey] at h
    simp [getItem, h]

theorem asString_ok {j : Json} {s : String} (h : asString j = Except.ok s) :
    j = Json.str s := by
  cases j with
  | str t =>
    simp only [asString] at h
    cases h
    rfl
  | null => exact Except.noConfusion h
  | bool b => exact Except.noConfusion h
  | num n => exact Except.noConfusion h
  | arr xs => exact Except.noConfusion h
  | obj fs => exact Except.noConfusion h

theorem formatChars_no_brace (v : List Char) (cs : List Char)
    (h : ∀ c ∈ cs, c ≠ lbrace ∧ c ≠ rbrace) :
    formatChars v FmtState.normal cs = Except.ok cs := by
  induction cs with
  | nil => rfl
  | cons c rest ih =>
    obtain ⟨h1, h2⟩ := h c (List.mem_cons_self c rest)
    have ih' := ih (fun c' hc' => h c' (List.mem_cons_of_mem c hc'))
    simp [formatChars, h1, h2, ih', Except.map]

theorem pyFormat_no_brace (s v : String) (h : ∀ c ∈ s.data, c ≠ lbrace ∧ c ≠ rbrace) :
    pyFormat s v = Except.ok s := by
  unfold pyFormat
  rw [formatChars_no_brace v.data s.data h]
  rfl

theorem digitsThenDot_some {cs t : List Char} (h : digitsThenDot cs = some t) :
    ∀ c ∈ cs, c.isDigit = true ∨ c = '.' ∨ c ∈ t := by
  unfold digitsThenDot at h
  cases hr : cs.dropWhile Char.isDigit with
  | nil =>
    rw [hr] at h
    exact absurd h (by simp)
  | cons c1 t1 =>
    rw [hr] at h
    dsimp only at h
    by_cases hc : c1 = '.' ∧ cs.takeWhile Char.isDigit ≠ []
    · rw [if_pos hc] at h
      injection h with ht
      subst ht
      intro c hcmem
      have hsplit := List.takeWhile_append_dropWhile Char.isDigit cs
      rw [← hsplit] at hcmem
      rcases List.mem_append.1 hcmem with hmem | hmem
      · exact Or.inl (List.mem_takeWhile_imp hmem)
      · rw [hr] at hmem
        rcases List.mem_cons.1 hmem with hmem1 | hmem1
        · exact Or.inr (Or.inl (hmem1.trans hc.1))
        · exact Or.inr (Or.inr hmem1)
    · rw [if_neg hc] at h
      exact absurd h (by simp)

theorem versionChars_mem {cs : List Char} (h : versionChars cs = true) :
    ∀ c ∈ cs, c.isDigit = true ∨ c = '.' := by
  unfold versionChars at h
  cases h1 : digitsThenDot cs with
  | none =>
    rw [h1] at h
    exact absurd h (by simp)
  | some t1 =>
    rw [h1] at h
    dsimp only at h
    cases h2 : digitsThenDot t1 with
    | none =>
      rw [h2] at h
      exact absurd h (by simp)
    | some t2 =>
      rw [h2] at h
      rw [Bool.and_eq_true] at h
      have hend : t2.dropWhile Char.isDigit = [] := of_decide_eq_true h.2
      intro c hc
      rcases digitsThenDot_some h1 c hc with hd | hdot | h1m
      · exact Or.inl hd
      · exact Or.inr hdot
      · rcases digitsThenDot_some h2 c h1m with hd | hdot | h2m
        · exact Or.inl hd
        · exact Or.inr hdot
        · have hsplit := List.takeWhile_append_dropWhile Char.isDigit t2
          rw [hend, List.append_nil] at hsplit
          rw [← hsplit] at h2m
          exact Or.inl (List.mem_takeWhile_imp h2m)

theorem versionOkChars_no_dash {cs : List Char} (h : versionOkChars cs = true) :
    ('-') ∉ cs := by
  intro hmem
  unfold versionOkChars at h
  rw [Bool.or_eq_true] at h
  rcases h with hsnap | hver
  · have hcs : cs = "SNAPSHOT".data := of_decide_eq_true hsnap
    rw [hcs] at hmem
    exact absurd hmem (by decide)
  · rcases versionChars_mem hver _ hmem with hd | hdot
    · exact absurd hd (by decide)
    · exact absurd hdot (by decide)

theorem has_match_iff (a n : String) :
    has_match a n = true ↔
      ∃ w : List Char, versionOkChars w = true ∧ n.data = a.data ++ '-' :: w := by
  unfold has_match
  constructor
  · intro h
    rw [Bool.and_eq_true] at h
    obtain ⟨h1, h2⟩ := h
    have htake : n.data.take (a.data.length + 1) = a.data ++ [ '-' ] := of_decide_eq_true h1
    refine ⟨n.data.drop (a.data.length + 1), h2, ?_⟩
    calc n.data
        = n.data.take (a.data.length + 1) ++ n.data.drop (a.data.length + 1) :=
          (List.take_append_drop _ _).symm
      _ = (a.data ++ [ '-' ]) ++ n.data.drop (a.data.length + 1) := by rw [htake]
      _ = a.data ++ '-' :: n.data.drop (a.data.length + 1) := by simp

  · rintro ⟨w, hw, hn⟩
    have hcons : a.data ++ '-' :: w = (a.data ++ [ '-' ]) ++ w := by simp
    have hlen : a.data.length + 1 = (a.data ++ [ '-' ]).length := by simp
    have h1 : (a.data ++ '-' :: w).take (a.data.length + 1) = a.data ++ [ '-' ] := by
      rw [hcons, hlen, List.take_left]
    have h2 : (a.data ++ '-' :: w).drop (a.data.length + 1) = w := by
      rw [hcons, hlen, List.drop_left]
    rw [hn, Bool.and_eq_true]
    constructor
    · exact decide_eq_true h1
    · rw [h2]
      exact hw

theorem data_concat_dash (A V : String) : (A ++ "-" ++ V).data = A.data ++ '-' :: V.data := by
  have hd : ("-" : String).data = [ '-' ] := rfl
  rw [String.data_append, String.data_append, hd, List.append_assoc]
  rfl

theorem has_match_exact {A V : String} (hV : versionOk V = true) :
    has_match A (A ++ "-" ++ V) = true := by
  rw [has_match_iff]
  exact ⟨V.data, hV, data_concat_dash A V⟩

theorem has_match_proper_suffix {A X V : String} (hX : X ≠ "") :
    has_match A (A ++ X ++ "-" ++ V) = false := by
  rw [Bool.eq_false_iff]
  intro h
  rcases (has_match_iff _ _).1 h with ⟨w, hw, hn⟩
  have hdata : (A ++ X ++ "-" ++ V).data = A.data ++ (X.data ++ '-' :: V.data) := by
    have hd : ("-" : String).data = [ '-' ] := rfl
    rw [String.data_append, String.data_append, String.data_append, hd]
    simp [List.append_assoc]
  rw [hdata] at hn
  have hx : X.data ++ '-' :: V.data = '-' :: w := List.append_cancel_left hn
  cases hXd : X.data with
  | nil => exact hX (string_data_inj hXd)
  | cons c xt =>
    rw [hXd] at hx
    injection hx with hc hw'
    have hmem : ('-') ∈ w := by
      rw [← hw']
      exact List.mem_append.2 (Or.inr (List.mem_cons_self _ _))
    exact versionOkChars_no_dash hw hmem

theorem application_job_id_some {A : String} {jobs : List JobConfig} {i : Int}
    (h : application_job_id A jobs = some i) :
    ∃ j ∈ jobs, j.job_id = i ∧ has_match A j.name = true := by
  unfold application_job_id at h
  cases hf : jobs.find? (fun j => has_match A j.name) with
  | none =>
    rw [hf] at h
    exact absurd h (by simp)
  | some j =>
    rw [hf] at h
    refine ⟨j, List.mem_of_find?_eq_some hf, ?_, by simpa using List.find?_some hf⟩
    simpa using h

theorem application_job_id_none {A : String} {jobs : List JobConfig}
    (h : application_job_id A jobs = none) :
    ∀ j ∈ jobs, has_match A j.name = false := by
  unfold application_job_id at h
  have hf : jobs.find? (fun j => has_match A j.name) = none := by
    cases hf : jobs.find? (fun j => has_match A j.name) with
    | none => rfl
    | some j =>
      rw [hf] at h
      exact absurd h (by simp)
  intro j hj
  have := List.find?_eq_none.1 hf j hj
  simpa using this

theorem application_job_id_of_mem {A : String} {jobs : List JobConfig} {j : JobConfig}
    (hj : j ∈ jobs) (hm : has_match A j.name = true) :
    ∃ j' ∈ jobs, application_job_id A jobs = some j'.job_id ∧ has_match A j'.name = true := by
  have hsome : (jobs.find? (fun j => has_match A j.name)).isSome :=
    List.find?_isSome.2 ⟨j, hj, by simpa using hm⟩
  cases hf : jobs.find? (fun j => has_match A j.name) with
  | none =>
    rw [hf] at hsome
    simp at hsome
  | some j' =>
    refine ⟨j', List.mem_of_find?_eq_some hf, ?_, by simpa using List.find?_some hf⟩
    unfold application_job_id
    rw [hf]
    rfl

theorem eq_singleton_of_length_le_one {xs : List JobConfig} {a : JobConfig}
    (h : xs.length ≤ 1) (ha : a ∈ xs) : xs = [a] := by
  cases xs with
  | nil => cases ha
  | cons b t =>
    cases t with
    | nil =>
      rw [List.mem_singleton] at ha
      rw [ha]
    | cons c t2 =>
      simp [List.length_cons] at h

theorem setPath_three {t nc sc : Json} {a b c : String} (v : Json)
    (h1 : t.getKey a = some nc) (h2 : nc.getKey b = some sc) {w : Json}
    (h3 : sc.getKey c = some w) :
    Json.setPath t [a, b, c] v = t.setKey a (nc.setKey b (sc.setKey c v)) := by
  simp [Json.setPath, h1, h2, h3]

theorem construct_ok_inversion {template cfg : Json} {name dtap egg python_file : String}
    (h : construct_job_config template name dtap egg python_file = Except.ok cfg) :
    ∃ (nc sc spt : Json) (sfs : List (String × Json)) (xs : List Json) (ws formatted : String),
      template.getKey "new_cluster" = some nc ∧
      nc.getKey "spark_conf" = some sc ∧
      sc.getKey "spark.sql.warehouse.dir" = some (Json.str ws) ∧
      pyFormat ws (strLower dtap) = Except.ok formatted ∧
      template.getKey "spark_python_task" = some spt ∧
      spt = Json.obj sfs ∧
      template.getKey "libraries" = some (Json.arr xs) ∧
      cfg = (((template.setKey "new_cluster"
                (nc.setKey "spark_conf"
                  (sc.setKey "spark.sql.warehouse.dir" (Json.str formatted)))).setKey
              "name" (Json.str name)).setKey "spark_python_task"
              (spt.setKey "python_file" (Json.str python_file))).setKey "libraries"
              (Json.arr (xs ++ [ Json.obj [("egg", Json.str egg)] ])) := by
  unfold construct_job_config at h
  split at h
  next e1 => exact Except.noConfusion h
  next nc e1 =>
    split at h
    next e2 => exact Except.noConfusion h
    next sc e2 =>
      split at h
      next e3 => exact Except.noConfusion h
      next wd e3 =>
        split at h
        next e4 => exact Except.noConfusion h
        next ws e4 =>
          split at h
          next e5 => exact Except.noConfusion h
          next formatted e5 =>
            dsimp only at h
            have ge1 : template.getKey "new_cluster" = some nc :=
              (getItem_eq_ok_iff _ _ _).1 e1
            have ge2 : nc.getKey "spark_conf" = some sc :=
              (getItem_eq_ok_iff _ _ _).1 e2
            have hwd : wd = Json.str ws := asString_ok e4
            have ge3 : sc.getKey "spark.sql.warehouse.dir" = some (Json.str ws) := by
              rw [← hwd]
              exact (getItem_eq_ok_iff _ _ _).1 e3
            have hsp : Json.setPath template warehouse_dir_path (Json.str formatted) =
                template.setKey "new_cluster"
                  (nc.setKey "spark_conf"
                    (sc.setKey "spark.sql.warehouse.dir" (Json.str formatted))) :=
              setPath_three (Json.str formatted) ge1 ge2 ge3
            rw [hsp] at h
            split at h
            next e6 => exact Except.noConfusion h
            next spt e6 =>
              have ge6 : template.getKey "spark_python_task" = some spt := by
                have := (getItem_eq_ok_iff _ _ _).1 e6
                rwa [getKey_setKey_ne _ _ _ _ (by decide),
                  getKey_setKey_ne _ _ _ _ (by decide)] at this
              split at h
              next sfs =>
                split at h
                next e7 => exact Except.noConfusion h
                next xs e7 =>
                  have ge7 : template.getKey "libraries" = some (Json.arr xs) := by
                    have := (getItem_eq_ok_iff _ _ _).1 e7
                    rwa [getKey_setKey_ne _ _ _ _ (by decide),
                      getKey_setKey_ne _ _ _ _ (by decide),
                      getKey_setKey_ne _ _ _ _ (by decide)] at this
                  injection h with h
                  subst h
                  exact ⟨nc, sc, Json.obj sfs, sfs, xs, ws, formatted, ge1, ge2, ge3, e5,
                    ge6, rfl, ge7, rfl⟩
                next e7 => exact Except.noConfusion h
              next hnotobj => exact Except.noConfusion h

theorem getPath_cons {j v : Json} {k : String} (ks : List String) (h : j.getKey k = some v) :
    j.getPath (k :: ks) = v.getPath ks := by
  simp [Json.getPath, h]

theorem getPath_single (j : Json) (k : String) : j.getPath [ k ] = j.getKey k := by
  cases hget : j.getKey k <;> simp [Json.getPath, hget]

theorem getKey_setKey_eq_of_obj {j : Json} (k : String) (v : Json)
    (h : ∃ fs, j = Json.obj fs) : (j.setKey k v).getKey k = some v := by
  obtain ⟨fs, rfl⟩ := h
  exact getKey_setKey_eq fs k v

theorem setKey_obj {j : Json} (k : String) (v : Json) (h : ∃ fs, j = Json.obj fs) :
    ∃ fs', j.setKey k v = Json.obj fs' := by
  obtain ⟨fs, rfl⟩ := h
  exact ⟨setFieldList k v fs, rfl⟩

/-! ### Claim theorems -/

/-- C1: for every application name `A` and every version `V` that is the
literal `SNAPSHOT` or matches `\d+\.\d+\.\d+`, `__application_job_id`
returns a matching job's id whenever a job named exactly `A-V` is present
(and that job's name is `A-W` for a version `W` from the same alternative),
every id it returns belongs to a job whose name matches, and it never
selects a job named `AX-V` for any nonempty suffix `X`. -/
theorem c1_application_job_id_exact (A V : String) (jobs : List JobConfig)
    (hV : versionOk V = true) :
    ((∃ j ∈ jobs, j.name = A ++ "-" ++ V) →
      ∃ j ∈ jobs, application_job_id A jobs = some j.job_id ∧
        ∃ W : String, versionOk W = true ∧ j.name = A ++ "-" ++ W) ∧
    (∀ i : Int, application_job_id A jobs = some i →
      ∃ j ∈ jobs, j.job_id = i ∧ has_match A j.name = true) ∧
    (∀ X : String, X ≠ "" → has_match A (A ++ X ++ "-" ++ V) = false) := by
  refine ⟨?_, ?_, ?_⟩
  · rintro ⟨j, hj, hname⟩
    have hm : has_match A j.name = true := by
      rw [hname]
      exact has_match_exact hV
    rcases application_job_id_of_mem hj hm with ⟨j', hj', hid, hm'⟩
    rcases (has_match_iff A j'.name).1 hm' with ⟨w, hw, hn⟩
    refine ⟨j', hj', hid, String.mk w, hw, string_data_inj ?_⟩
    rw [hn, data_concat_dash]
  · intro i hi
    exact application_job_id_some hi
  · intro X hX
    exact has_match_proper_suffix hX

/-- Concrete instance of `c1_application_job_id_exact`. -/
theorem c1_witness :
    versionOk "1.0.0" = true ∧
    (((∃ j ∈ [ JobConfig.mk "app-1.0.0" 7 ], j.name = "app" ++ "-" ++ "1.0.0") →
      ∃ j ∈ [ JobConfig.mk "app-1.0.0" 7 ],
        application_job_id "app" [ JobConfig.mk "app-1.0.0" 7 ] = some j.job_id ∧
        ∃ W : String, versionOk W = true ∧ j.name = "app" ++ "-" ++ W) ∧
    (∀ i : Int, application_job_id "app" [ JobConfig.mk "app-1.0.0" 7 ] = some i →
      ∃ j ∈ [ JobConfig.mk "app-1.0.0" 7 ], j.job_id = i ∧ has_match "app" j.name = true) ∧
    (∀ X : String, X ≠ "" → has_match "app" ("app" ++ X ++ "-" ++ "1.0.0") = false)) :=
  ⟨by decide, c1_application_job_id_exact "app" "1.0.0" [ JobConfig.mk "app-1.0.0" 7 ]
    (by decide)⟩

/-- C3: when `__remove_job` finds a matching job (with a truthy id) and the
job is streaming, it lists the job's active runs and cancels every run id
of the returned first page before the delete-job call; when it is batch, it
deletes directly with no run-listing and no cancellation. -/
theorem c3_remove_job_sequence (jobs : List JobConfig)
    (runs_response : Int → Option (List Int)) (application_name : String) (i : Int)
    (hfind : application_job_id application_name jobs = some i) (hnz : i ≠ 0) :
    remove_job jobs runs_response application_name true =
      ApiCall.listJobs :: ApiCall.listRuns i true ::
        ((match runs_response i with
          | some run_ids => run_ids.map ApiCall.cancelRun
          | none => []) ++ [ ApiCall.deleteJob i ]) ∧
    remove_job jobs runs_response application_name false =
      [ ApiCall.listJobs, ApiCall.deleteJob i ] := by
  unfold remove_job
  rw [hfind]
  constructor
  · simp [hnz, kill_it_with_fire]
  · simp [hnz]

/-- Concrete instance of `c3_remove_job_sequence`. -/
theorem c3_witness :
    application_job_id "app" c3_jobs = some 7 ∧ (7 : Int) ≠ 0 ∧
    (remove_job c3_jobs c3_runs "app" true =
      ApiCall.listJobs :: ApiCall.listRuns 7 true ::
        ((match c3_runs 7 with
          | some run_ids => run_ids.map ApiCall.cancelRun
          | none => []) ++ [ ApiCall.deleteJob 7 ]) ∧
    remove_job c3_jobs c3_runs "app" false = [ ApiCall.listJobs, ApiCall.deleteJob 7 ]) :=
  ⟨by decide, by decide, c3_remove_job_sequence c3_jobs c3_runs "app" 7 (by decide) (by decide)⟩

/-- C5: an exact-match tag always deploys with that tag as version and tier
PRD (regardless of branch); otherwise branch `master` deploys the literal
`SNAPSHOT` to DEV; any other branch performs no deployment and yields the
diagnostic outcome naming the branch (a normal return, not an error). -/
theorem c5_release_classifier (t branch : String) :
    classify (some t) branch = Outcome.deploy t "PRD" ∧
    classify none "master" = Outcome.deploy "SNAPSHOT" "DEV" ∧
    (branch ≠ "master" → classify none branch = Outcome.skip branch) := by
  refine ⟨rfl, rfl, ?_⟩
  intro h
  simp [classify, h]

/-- Concrete instance of `c5_release_classifier`. -/
theorem c5_witness :
    ("feature-x" : String) ≠ "master" ∧
    classify none "feature-x" = Outcome.skip "feature-x" :=
  ⟨by decide, (c5_release_classifier "2.3.1" "feature-x").2.2 (by decide)⟩

/-- C7: `__submit_job` issues exactly one create-job call; a streaming job
is followed by exactly one run-now call on the returned id with all four
parameter-override arguments `None`; a batch job gets no run-now call. -/
theorem c7_submit_job_calls (job_config : Json) (new_job_id : Int) :
    submit_job job_config true new_job_id =
      [ ApiCall.createJob job_config, ApiCall.runNow new_job_id none none none none ] ∧
    submit_job job_config false new_job_id = [ ApiCall.createJob job_config ] :=
  ⟨rfl, rfl⟩

/-- C10: a matching job whose id is the integer 0 is skipped by
`__remove_job` (Python's `if job_id:` tests truthiness, and 0 is falsy), so
no cancel-run and no delete-job call is issued. -/
theorem c10_zero_job_id_skipped (jobs : List JobConfig)
    (runs_response : Int → Option (List Int)) (application_name : String) (streaming : Bool)
    (h : application_job_id application_name jobs = some 0) :
    remove_job jobs runs_response application_name streaming = [ ApiCall.listJobs ] := by
  unfold remove_job
  rw [h]
  simp

/-- Concrete instance of `c10_zero_job_id_skipped`. -/
theorem c10_witness :
    application_job_id "app" c10_jobs = some 0 ∧
    remove_job c10_jobs (fun _ => none) "app" true = [ ApiCall.listJobs ] :=
  ⟨by decide, c10_zero_job_id_skipped c10_jobs (fun _ => none) "app" true (by decide)⟩

/-- C4: the spec's end-to-end scenario 1, plus the general lowercasing of
the tier before interpolation. -/
theorem c4_end_to_end :
    construct_job_config c4_template "app-1.0.0" "PRD" sample_egg sample_py =
      Except.ok c4_result ∧
    c4_result.getPath warehouse_dir_path = some (Json.str "/mnt/prd") ∧
    c4_result.getKey "name" = some (Json.str "app-1.0.0") ∧
    c4_result.getKey "libraries" =
      some (Json.arr [ Json.obj [("egg", Json.str sample_egg)] ]) ∧
    c4_result.getKey "schedule" = none ∧
    is_streaming c4_result = false ∧
    (construct_job_config c4_template "app-1.0.0" "DEV" sample_egg sample_py).map
      (fun cfg => cfg.getPath warehouse_dir_path) =
      Except.ok (some (Json.str "/mnt/dev")) ∧
    strLower "DEV" = "dev" ∧ strLower "PRD" = "prd" :=
  ⟨rfl, rfl, rfl, rfl, rfl, rfl, rfl, rfl, rfl⟩

/-- C8 counterexample: on a template whose warehouse-dir string has no
`{dtap}` placeholder the builder does NOT fail — it succeeds and leaves the
string unchanged, refuting the claim's second half. -/
theorem c8_counterexample :
    exceptOk (construct_job_config c8_template "app-1.0.0" "PRD" sample_egg sample_py) = true ∧
    (construct_job_config c8_template "app-1.0.0" "PRD" sample_egg sample_py).map
      (fun cfg => cfg.getPath warehouse_dir_path) =
      Except.ok (some (Json.str "/mnt/static")) :=
  ⟨rfl, rfl⟩

/-- C8 (amended): the builder fails whenever the warehouse-directory field
is absent from the template; but a present field whose string holds no
brace at all (in particular, no `{dtap}` placeholder) passes through
`str.format` unchanged and causes no failure. -/
theorem c8_amended_failure_modes (template : Json) (name dtap egg python_file s v : String)
    (habs : template.getPath warehouse_dir_path = none)
    (hbr : ∀ c ∈ s.data, c ≠ lbrace ∧ c ≠ rbrace) :
    (∃ e, construct_job_config template name dtap egg python_file = Except.error e) ∧
    pyFormat s v = Except.ok s := by
  constructor
  · cases hc : construct_job_config template name dtap egg python_file with
    | error e => exact ⟨e, rfl⟩
    | ok cfg =>
      exfalso
      rcases construct_ok_inversion hc with ⟨nc, sc, spt, sfs, xs, ws, formatted,
        ge1, ge2, ge3, _, _, _, _, _⟩
      simp [warehouse_dir_path, Json.getPath, ge1, ge2, ge3] at habs
  · exact pyFormat_no_brace s v hbr

/-- Concrete instance of `c8_amended_failure_modes`. -/
theorem c8_amended_witness :
    (Json.obj []).getPath warehouse_dir_path = none ∧
    (∀ c ∈ ("/mnt/static" : String).data, c ≠ lbrace ∧ c ≠ rbrace) ∧
    ((∃ e, construct_job_config (Json.obj []) "n" "PRD" "e" "p" = Except.error e) ∧
      pyFormat "/mnt/static" "prd" = Except.ok "/mnt/static") :=
  ⟨rfl, by decide,
    c8_amended_failure_modes (Json.obj []) "n" "PRD" "e" "p" "/mnt/static" "prd" rfl
      (by decide)⟩

/-- C2 counterexample: with two matching jobs already present, a successful
remove-then-submit run leaves two matching jobs (only the first match is
deleted), refuting the invariant for arbitrary starting states. -/
theorem c2_counterexample :
    ¬ (matching_jobs
        (deploy_run_state [ ⟨"app-1.0.0", 1⟩, ⟨"app-2.0.0", 2⟩ ] "app" "3.0.0" 3)
        "app").length ≤ 1 := by decide

theorem filter_singleton_length_le_one (p : JobConfig → Bool) (x : JobConfig) :
    (List.filter p [ x ]).length ≤ 1 := by
  cases hp : p x <;> simp [List.filter_cons, hp]

/-- C2 (amended): the at-most-one-matching-job invariant holds after a
successful remove-then-submit run provided the starting job list itself
contained at most one matching job and no matching job carried the falsy
id 0; the run deletes only the first match, so extra pre-existing matches
would survive. -/
theorem c2_amended_at_most_one (jobs : List JobConfig) (application_name version : String)
    (new_job_id : Int)
    (h1 : (matching_jobs jobs application_name).length ≤ 1)
    (h2 : ∀ j ∈ jobs, has_match application_name j.name = true → j.job_id ≠ 0) :
    (matching_jobs (deploy_run_state jobs application_name version new_job_id)
        application_name).length ≤ 1 := by
  unfold deploy_run_state submit_job_state matching_jobs
  rw [List.filter_append]
  cases hfind : application_job_id application_name jobs with
  | none =>
    have hnone := application_job_id_none hfind
    have hmj : jobs.filter (fun j => has_match application_name j.name) = [] := by
      rw [List.filter_eq_nil_iff]
      intro a ha
      simp [hnone a ha]
    unfold remove_job_state
    rw [hfind, hmj]
    simpa using filter_singleton_length_le_one _ _
  | some i =>
    rcases application_job_id_some hfind with ⟨j, hj, hjid, hjm⟩
    have hne : i ≠ 0 := by
      rw [← hjid]
      exact h2 j hj hjm
    have hjmem : j ∈ matching_jobs jobs application_name :=
      List.mem_filter.2 ⟨hj, by simpa using hjm⟩
    have hsingle : matching_jobs jobs application_name = [ j ] :=
      eq_singleton_of_length_le_one h1 hjmem
    have hdel : (delete_job_state jobs i).filter
        (fun j => has_match application_name j.name) = [] := by
      unfold delete_job_state
      rw [List.filter_filter]
      have hcomm : ∀ a : JobConfig,
          (has_match application_name a.name && decide (a.job_id ≠ i)) =
            (decide (a.job_id ≠ i) && has_match application_name a.name) := by
        intro a
        exact Bool.and_comm _ _
      rw [List.filter_congr (fun a _ => hcomm a), ← List.filter_filter]
      have hsingle' : jobs.filter (fun j => has_match application_name j.name) = [ j ] :=
        hsingle
      rw [hsingle']
      simp [List.filter_cons, hjid]
    unfold remove_job_state
    rw [hfind]
    dsimp only
    rw [if_neg hne, hdel]
    simpa using filter_singleton_length_le_one _ _

/-- Concrete instance of `c2_amended_at_most_one`. -/
theorem c2_amended_witness :
    (matching_jobs [ JobConfig.mk "app-1.0.0" 5 ] "app").length ≤ 1 ∧
    (∀ j ∈ [ JobConfig.mk "app-1.0.0" 5 ],
      has_match "app" j.name = true → j.job_id ≠ 0) ∧
    (matching_jobs (deploy_run_state [ JobConfig.mk "app-1.0.0" 5 ] "app" "2.0.0" 9)
        "app").length ≤ 1 :=
  ⟨by decide, by decide,
    c2_amended_at_most_one [ JobConfig.mk "app-1.0.0" 5 ] "app" "2.0.0" 9
      (by decide) (by decide)⟩

/-- C6: the deployment classifies a built config as streaming exactly when
the key `schedule` is present in it (any value), and the builder neither
adds nor removes that key relative to the template. -/
theorem c6_streaming_iff_schedule (template cfg : Json) (name dtap egg python_file : String)
    (h : construct_job_config template name dtap egg python_file = Except.ok cfg) :
    (is_streaming cfg = true ↔ cfg.getKey "schedule" ≠ none) ∧
    cfg.getKey "schedule" = template.getKey "schedule" := by
  constructor
  · unfold is_streaming hasKey
    cases cfg.getKey "schedule" <;> simp
  · rcases construct_ok_inversion h with ⟨nc, sc, spt, sfs, xs, ws, formatted,
      ge1, ge2, ge3, hpf, ge6, hobj, ge7, rfl⟩
    rw [getKey_setKey_ne _ _ _ _ (by decide), getKey_setKey_ne _ _ _ _ (by decide),
      getKey_setKey_ne _ _ _ _ (by decide), getKey_setKey_ne _ _ _ _ (by decide)]

/-- Concrete instance of `c6_streaming_iff_schedule`. -/
theorem c6_witness :
    construct_job_config c6_template "app-SNAPSHOT" "DEV" sample_egg sample_py =
      Except.ok c6_result ∧
    ((is_streaming c6_result = true ↔ c6_result.getKey "schedule" ≠ none) ∧
      c6_result.getKey "schedule" = c6_template.getKey "schedule") :=
  ⟨rfl, c6_streaming_iff_schedule c6_template c6_result "app-SNAPSHOT" "DEV"
    sample_egg sample_py rfl⟩

/-- C9: the built config differs from the template only at the four
documented places — the warehouse-dir string, the top-level `name`, the
`spark_python_task.python_file` entry-point, and one entry appended at the
end of `libraries` — and the embedding is a pure function of the template,
so there is no side effect beyond the returned structure. -/
theorem c9_frame (template cfg : Json) (name dtap egg python_file : String)
    (h : construct_job_config template name dtap egg python_file = Except.ok cfg) :
    (∀ k, k ≠ "name" → k ≠ "new_cluster" → k ≠ "spark_python_task" → k ≠ "libraries" →
      cfg.getKey k = template.getKey k) ∧
    (∀ k, k ≠ "spark_conf" →
      cfg.getPath [ "new_cluster", k ] = template.getPath [ "new_cluster", k ]) ∧
    (∀ k, k ≠ "spark.sql.warehouse.dir" →
      cfg.getPath [ "new_cluster", "spark_conf", k ] =
        template.getPath [ "new_cluster", "spark_conf", k ]) ∧
    (∀ k, k ≠ "python_file" →
      cfg.getPath [ "spark_python_task", k ] =
        template.getPath [ "spark_python_task", k ]) ∧
    cfg.getKey "name" = some (Json.str name) ∧
    cfg.getPath [ "spark_python_task", "python_file" ] = some (Json.str python_file) ∧
    (∃ ws formatted : String,
      template.getPath warehouse_dir_path = some (Json.str ws) ∧
      pyFormat ws (strLower dtap) = Except.ok formatted ∧
      cfg.getPath warehouse_dir_path = some (Json.str formatted)) ∧
    (∃ xs : List Json,
      template.getKey "libraries" = some (Json.arr xs) ∧
      cfg.getKey "libraries" =
        some (Json.arr (xs ++ [ Json.obj [("egg", Json.str egg)] ]))) := by
  rcases construct_ok_inversion h with ⟨nc, sc, spt, sfs, xs, ws, formatted,
    ge1, ge2, ge3, hpf, ge6, hspt, ge7, rfl⟩
  subst hspt
  obtain ⟨tfs, rfl⟩ := getKey_some_obj ge1
  obtain ⟨nfs, rfl⟩ := getKey_some_obj ge2
  obtain ⟨wfs, rfl⟩ := getKey_some_obj ge3
  have hobj_t : ∃ fs, (Json.obj tfs) = Json.obj fs := ⟨tfs, rfl⟩
  have hobj_nc : ∃ fs, (Json.obj nfs) = Json.obj fs := ⟨nfs, rfl⟩
  have hobj_sc : ∃ fs, (Json.obj wfs) = Json.obj fs := ⟨wfs, rfl⟩
  have hobj_spt : ∃ fs, (Json.obj sfs) = Json.obj fs := ⟨sfs, rfl⟩
  have hobj_j1 := setKey_obj "new_cluster"
    ((Json.obj nfs).setKey "spark_conf"
      ((Json.obj wfs).setKey "spark.sql.warehouse.dir" (Json.str formatted))) hobj_t
  have hobj_j2 := setKey_obj "name" (Json.str name) hobj_j1
  have hobj_j3 := setKey_obj "spark_python_task"
    ((Json.obj sfs).setKey "python_file" (Json.str python_file)) hobj_j2
  have hnc_cfg :
      (((((Json.obj tfs).setKey "new_cluster"
            ((Json.obj nfs).setKey "spark_conf"
              ((Json.obj wfs).setKey "spark.sql.warehouse.dir"
                (Json.str formatted)))).setKey "name" (Json.str name)).setKey
          "spark_python_task"
          ((Json.obj sfs).setKey "python_file" (Json.str python_file))).setKey "libraries"
          (Json.arr (xs ++ [ Json.obj [("egg", Json.str egg)] ]))).getKey "new_cluster" =
        some ((Json.obj nfs).setKey "spark_conf"
          ((Json.obj wfs).setKey "spark.sql.warehouse.dir" (Json.str formatted))) := by
    rw [getKey_setKey_ne _ _ _ _ (by decide), getKey_setKey_ne _ _ _ _ (by decide),
      getKey_setKey_ne _ _ _ _ (by decide)]
    exact getKey_setKey_eq_of_obj _ _ hobj_t
  have hsc_nc :
      ((Json.obj nfs).setKey "spark_conf"
          ((Json.obj wfs).setKey "spark.sql.warehouse.dir"
            (Json.str formatted))).getKey "spark_conf" =
        some ((Json.obj wfs).setKey "spark.sql.warehouse.dir" (Json.str formatted)) :=
    getKey_setKey_eq_of_obj _ _ hobj_nc
  have hspt_cfg :
      (((((Json.obj tfs).setKey "new_cluster"
            ((Json.obj nfs).setKey "spark_conf"
              ((Json.obj wfs).setKey "spark.sql.warehouse.dir"
                (Json.str formatted)))).setKey "name" (Json.str name)).setKey
          "spark_python_task"
          ((Json.obj sfs).setKey "python_file" (Json.str python_file))).setKey "libraries"
          (Json.arr (xs ++ [ Json.obj [("egg", Json.str egg)] ]))).getKey
          "spark_python_task" =
        some ((Json.obj sfs).setKey "python_file" (Json.str python_file)) := by
    rw [getKey_setKey_ne _ _ _ _ (by decide)]
    exact getKey_setKey_eq_of_obj _ _ hobj_j2
  refine ⟨?_, ?_, ?_, ?_, ?_, ?_, ?_, ?_⟩
  · intro k hk1 hk2 hk3 hk4
    rw [getKey_setKey_ne _ _ _ _ hk4, getKey_setKey_ne _ _ _ _ hk3,
      getKey_setKey_ne _ _ _ _ hk1, getKey_setKey_ne _ _ _ _ hk2]
  · intro k hk
    rw [getPath_cons _ hnc_cfg, getPath_cons _ ge1, getPath_single, getPath_single,
      getKey_setKey_ne _ _ _ _ hk]
  · intro k hk
    rw [getPath_cons _ hnc_cfg, getPath_cons _ ge1, getPath_cons _ hsc_nc,
      getPath_cons _ ge2, getPath_single, getPath_single,
      getKey_setKey_ne _ _ _ _ hk]
  · intro k hk
    rw [getPath_cons _ hspt_cfg, getPath_cons _ ge6, getPath_single, getPath_single,
      getKey_setKey_ne _ _ _ _ hk]
  · rw [getKey_setKey_ne _ _ _ _ (by decide), getKey_setKey_ne _ _ _ _ (by decide)]
    exact getKey_setKey_eq_of_obj _ _ hobj_j1
  · rw [getPath_cons _ hspt_cfg, getPath_single]
    exact getKey_setKey_eq_of_obj _ _ hobj_spt
  · refine ⟨ws, formatted, ?_, hpf, ?_⟩
    · unfold warehouse_dir_path
      rw [getPath_cons _ ge1, getPath_cons _ ge2, getPath_single]
      exact ge3
    · unfold warehouse_dir_path
      rw [getPath_cons _ hnc_cfg, getPath_cons _ hsc_nc, getPath_single]
      exact getKey_setKey_eq_of_obj _ _ hobj_sc
  · refine ⟨xs, ge7, ?_⟩
    exact getKey_setKey_eq_of_obj _ _ hobj_j3

/-- Concrete instance of `c9_frame`. -/
theorem c9_witness :
    construct_job_config c4_template "app-1.0.0" "PRD" sample_egg sample_py =
      Except.ok c4_result ∧
    ((∀ k, k ≠ "name" → k ≠ "new_cluster" → k ≠ "spark_python_task" → k ≠ "libraries" →
      c4_result.getKey k = c4_template.getKey k) ∧
    (∀ k, k ≠ "spark_conf" →
      c4_result.getPath [ "new_cluster", k ] = c4_template.getPath [ "new_cluster", k ]) ∧
    (∀ k, k ≠ "spark.sql.warehouse.dir" →
      c4_result.getPath [ "new_cluster", "spark_conf", k ] =
        c4_template.getPath [ "new_cluster", "spark_conf", k ]) ∧
    (∀ k, k ≠ "python_file" →
      c4_result.getPath [ "spark_python_task", k ] =
        c4_template.getPath [ "spark_python_task", k ]) ∧
    c4_result.getKey "name" = some (Json.str "app-1.0.0") ∧
    c4_result.getPath [ "spark_python_task", "python_file" ] = some (Json.str sample_py) ∧
    (∃ ws formatted : String,
      c4_template.getPath warehouse_dir_path = some (Json.str ws) ∧
      pyFormat ws (strLower "PRD") = Except.ok formatted ∧
      c4_result.getPath warehouse_dir_path = some (Json.str formatted)) ∧
    (∃ xs : List Json,
      c4_template.getKey "libraries" = some (Json.arr xs) ∧
      c4_result.getKey "libraries" =
        some (Json.arr (xs ++ [ Json.obj [("egg", Json.str sample_egg)] ])))) :=
  ⟨rfl, c9_frame c4_template c4_result "app-1.0.0" "PRD" sample_egg sample_py rfl⟩
